import Mathlib

/-!
Verification development for the eiskaltdcpp-py DCBridge gateway.

The definitions below are a shallow embedding of the C++ sources
(src/bridge.cpp, src/bridge.h, src/bridge_listeners.cpp,
src/bridge_listeners.h, src/types.h).  Strings are modelled as lists of
characters; the std::string operations used by the code (find, substr)
are translated directly.  Functions from the external dcpp engine that
the bridge merely calls are modelled only to the extent the bridge's own
behaviour depends on them, as noted at each definition.
-/

/-- Strings of the C++ code, modelled as lists of characters. -/
abbrev Str := List Char

/-- Test whether pattern pat occurs at the very start of s
(the prefix test used by the substring search below). -/
def matchesAt : Str → Str → Bool
  | [], _ => true
  | _ :: _, [] => false
  | p :: ps, c :: cs => p == c && matchesAt ps cs

/-- Scan of std::string::find: first index (counting from i at the head)
where pat occurs. -/
def strFindAux (pat : Str) : Str → Nat → Option Nat
  | [], i => if matchesAt pat [] then some i else none
  | c :: rest, i =>
      if matchesAt pat (c :: rest) then some i
      else strFindAux pat rest (i + 1)

/-- Model of std::string::find(pat, start): smallest index at or after
start at which pat occurs in s, none standing for std::string::npos. -/
def strFind (s pat : Str) (start : Nat) : Option Nat :=
  strFindAux pat (s.drop start) start

/-- Whether pat occurs anywhere in s (find from position 0 succeeds). -/
def containsSub (s pat : Str) : Bool :=
  (strFind s pat 0).isSome

/-- Accumulate the value of leading decimal digits (stop at the first
non-digit), as strtoll does after the sign. -/
def digitsAcc : Str → Int → Int
  | [], acc => acc
  | c :: rest, acc =>
      if c.isDigit then digitsAcc rest (acc * 10 + ((c.toNat : Int) - 48))
      else acc

/-- Modelled from the spec: the xl parameter is an optional base-10 byte
count.  The conversion the code calls, dcpp Util::toInt64 (a strtoll
wrapper), lives in the external engine, not under src; this models its
base-10 reading of an optional sign followed by leading digits,
returning 0 when no digits are present. -/
def toInt64 : Str → Int
  | '-' :: rest => - digitsAcc rest 0
  | '+' :: rest => digitsAcc rest 0
  | s => digitsAcc s 0

/-- Result of a successful magnet-link parse in DCBridge::addMagnet:
the extracted tth, size and name (bridge.cpp lines 657-693). -/
structure MagnetParse where
  tth : Str
  size : Int
  name : Str
deriving DecidableEq

/-- Marker whose absence makes DCBridge::addMagnet return false. -/
def xtMarker : Str := "xt=urn:tree:tiger:".toList

/-- Marker of the optional size parameter. -/
def xlMarker : Str := "xl=".toList

/-- Marker of the optional display-name parameter. -/
def dnMarker : Str := "dn=".toList

/-- Parsing phase of DCBridge::addMagnet (bridge.cpp lines 662-686):
find the xt marker (absence means failure, none); take the 39
characters after it as the tth; if an xl marker occurs anywhere, its
value runs to the next ampersand (or the end) and is read base-10,
else the size is 0; if a dn marker occurs anywhere, its value runs to
the next ampersand (or the end), else the name defaults to the tth. -/
def addMagnetParse (link : Str) : Option MagnetParse :=
  match strFind link xtMarker 0 with
  | none => none
  | some xtPos =>
      let tth := (link.drop (xtPos + 18)).take 39
      let size : Int :=
        match strFind link xlMarker 0 with
        | none => 0
        | some xlPos =>
            match strFind link ['&'] xlPos with
            | none => toInt64 (link.drop (xlPos + 3))
            | some e => toInt64 ((link.drop (xlPos + 3)).take (e - xlPos - 3))
      let name :=
        match strFind link dnMarker 0 with
        | none => ([] : Str)
        | some dnPos =>
            match strFind link ['&'] dnPos with
            | none => link.drop (dnPos + 3)
            | some e => (link.drop (dnPos + 3)).take (e - dnPos - 3)
      let name := if name = [] then tth else name
      some ⟨tth, size, name⟩

/-- Token of the specification's section-8 example magnet link.  Note it
has 35 characters, not 39. -/
def exToken : Str := "ABCDEFGHIJKLMNOPQRSTUVWXYZ234567ABC".toList

/-- Example magnet link of section 8 of the specification. -/
def exMagnet : Str :=
  "magnet:?xt=urn:tree:tiger:ABCDEFGHIJKLMNOPQRSTUVWXYZ234567ABC&xl=1024&dn=test.iso".toList

/-- Section-8 example with the dn parameter removed. -/
def exMagnetNoDn : Str :=
  "magnet:?xt=urn:tree:tiger:ABCDEFGHIJKLMNOPQRSTUVWXYZ234567ABC&xl=1024".toList

/-- Section-8 example with the xt parameter removed. -/
def exMagnetNoXt : Str := "magnet:?xl=1024&dn=test.iso".toList

/-- A full-width 39-character base-32 token, as real TTH values have. -/
def tok39 : Str := "ABCDEFGHIJKLMNOPQRSTUVWXYZ234567ABCDEFG".toList

/-- All six orders of the three parameters around a full-width
39-character token, used to check order independence. -/
def magnetPerms : List Str :=
  [ "magnet:?xt=urn:tree:tiger:ABCDEFGHIJKLMNOPQRSTUVWXYZ234567ABCDEFG&xl=1024&dn=test.iso".toList
  , "magnet:?xt=urn:tree:tiger:ABCDEFGHIJKLMNOPQRSTUVWXYZ234567ABCDEFG&dn=test.iso&xl=1024".toList
  , "magnet:?xl=1024&xt=urn:tree:tiger:ABCDEFGHIJKLMNOPQRSTUVWXYZ234567ABCDEFG&dn=test.iso".toList
  , "magnet:?xl=1024&dn=test.iso&xt=urn:tree:tiger:ABCDEFGHIJKLMNOPQRSTUVWXYZ234567ABCDEFG".toList
  , "magnet:?dn=test.iso&xt=urn:tree:tiger:ABCDEFGHIJKLMNOPQRSTUVWXYZ234567ABCDEFG&xl=1024".toList
  , "magnet:?dn=test.iso&xl=1024&xt=urn:tree:tiger:ABCDEFGHIJKLMNOPQRSTUVWXYZ234567ABCDEFG".toList ]

/-- C5 counterexample: the claim states the section-8 example string
yields TTH equal to its 39-character token, but the token in that
string has only 35 characters, and the code takes the fixed 39
characters following the tiger marker, so the extracted TTH is the
35-character token followed by the four characters of the next
parameter separator, not the token itself. -/
theorem addMagnet_example_tth_mismatch :
    (addMagnetParse exMagnet).map MagnetParse.tth =
      some (exToken ++ "&xl=".toList) ∧
    ¬ (addMagnetParse exMagnet).map MagnetParse.tth = some exToken := by
  constructor
  · decide
  · decide

/-- C5 amended: for every input with no xt marker the parse fails;
the section-8 example yields size 1024 and name test.iso but its TTH is
the 39 characters following the tiger marker, which here is the
35-character token followed by the next parameter separator; without dn
the name equals that extracted TTH; without xt the parse fails; and for
a full-width 39-character token the result is the same in every order
of the parameters. -/
theorem addMagnet_parse_amended :
    (∀ link : Str, containsSub link xtMarker = false →
      addMagnetParse link = none) ∧
    addMagnetParse exMagnet =
      some ⟨exToken ++ "&xl=".toList, 1024, "test.iso".toList⟩ ∧
    addMagnetParse exMagnetNoDn =
      some ⟨exToken ++ "&xl=".toList, 1024, exToken ++ "&xl=".toList⟩ ∧
    addMagnetParse exMagnetNoXt = none ∧
    (∀ p ∈ magnetPerms,
      addMagnetParse p = some ⟨tok39, 1024, "test.iso".toList⟩) := by
  refine ⟨?_, by decide, by decide, by decide, by decide⟩
  intro link h
  have hn : strFind link xtMarker 0 = none := by
    cases hs : strFind link xtMarker 0 with
    | none => rfl
    | some v => simp [containsSub, hs] at h
  simp [addMagnetParse, hn]

/-- C5 witness: the amended theorem applied at concrete inputs. -/
theorem addMagnet_parse_amended_witness :
    (containsSub ("no marker here".toList) xtMarker = false ∧
      addMagnetParse ("no marker here".toList) = none) ∧
    addMagnetParse
        ("magnet:?xl=1024&dn=test.iso&xt=urn:tree:tiger:ABCDEFGHIJKLMNOPQRSTUVWXYZ234567ABCDEFG".toList) =
      some ⟨tok39, 1024, "test.iso".toList⟩ :=
  ⟨⟨by decide, addMagnet_parse_amended.1 _ (by decide)⟩,
    addMagnet_parse_amended.2.2.2.2 _ (by decide)⟩

/-- Cached hub snapshot (types.h HubInfo). -/
structure HubInfo where
  url : Str
  name : Str
  description : Str
  userCount : Int
  sharedBytes : Int
  connected : Bool
  isOp : Bool
deriving DecidableEq

/-- Cached user entry (types.h UserInfo). -/
structure UserInfo where
  nick : Str
  description : Str
  connection : Str
  email : Str
  cid : Str
  shareSize : Int
  isOp : Bool
  isBot : Bool
deriving DecidableEq

/-- A stashed search result (types.h SearchResultInfo). -/
structure SearchResultInfo where
  file : Str
  size : Int
  tth : Str
  nick : Str
  hubUrl : Str
  hubName : Str
  freeSlots : Int
  totalSlots : Int
  isDirectory : Bool
deriving DecidableEq

/-- Entry returned when browsing a file list (types.h FileListEntry). -/
structure FileListEntry where
  name : Str
  size : Int
  tth : Str
  isDirectory : Bool
deriving DecidableEq

/-- Per-session cached state (bridge.h DCBridge::HubData).  The native
Client handle is modelled as an opaque numeric identifier; nullptr is
none.  The user directory is the nick-keyed map. -/
structure HubData where
  client : Option Nat
  cachedInfo : HubInfo
  chatHistory : List Str
  searchResults : List SearchResultInfo
  users : List (Str × UserInfo)
deriving DecidableEq

/-- The session table m_hubs: url-keyed map, modelled as an ordered
association list whose head plays the role of the container's begin. -/
abbrev HubTable := List (Str × HubData)

/-- Update the value stored at the first entry matching the key,
leaving everything else unchanged (the effect of mutating the mapped
value found by m_hubs.find). -/
def updateHub (hubs : HubTable) (url : Str) (f : HubData → HubData) : HubTable :=
  match hubs with
  | [] => []
  | (u, hd) :: rest =>
      if u == url then (u, f hd) :: rest
      else (u, hd) :: updateHub rest url f

/-- BridgeListeners::stashSearchResult (bridge_listeners.cpp lines
36-48): append the result to the hub whose url matches the result's
hub url; when no hub matches and the table is non-empty, append it to
the first hub instead. -/
def stashSearchResult (hubs : HubTable) (info : SearchResultInfo) : HubTable :=
  if (List.lookup info.hubUrl hubs).isSome then
    updateHub hubs info.hubUrl
      (fun hd => { hd with searchResults := hd.searchResults ++ [info] })
  else
    match hubs with
    | [] => []
    | (u, hd) :: rest =>
        (u, { hd with searchResults := hd.searchResults ++ [info] }) :: rest

theorem updateHub_keys (hubs : HubTable) (url : Str) (f : HubData → HubData) :
    (updateHub hubs url f).map Prod.fst = hubs.map Prod.fst := by
  induction hubs with
  | nil => rfl
  | cons p rest ih =>
      obtain ⟨u, hd⟩ := p
      by_cases h : u == url <;> simp [updateHub, h, ih]

theorem lookup_updateHub_self (hubs : HubTable) (url : Str) (f : HubData → HubData) :
    List.lookup url (updateHub hubs url f) = (List.lookup url hubs).map f := by
  induction hubs with
  | nil => rfl
  | cons p rest ih =>
      obtain ⟨u, hd⟩ := p
      by_cases h : u == url
      · have hu : u = url := by simpa using h
        simp [updateHub, h, List.lookup, hu]
      · have hu : ¬ url == u := by
          intro hc
          exact h (by simpa using (eq_comm.mp (by simpa using hc)))
        simp [updateHub, h, List.lookup, hu, ih]

theorem lookup_updateHub_other (hubs : HubTable) (url u : Str)
    (f : HubData → HubData) (hne : u ≠ url) :
    List.lookup u (updateHub hubs url f) = List.lookup u hubs := by
  induction hubs with
  | nil => rfl
  | cons p rest ih =>
      obtain ⟨u0, hd⟩ := p
      by_cases h : u0 == url
      · have hu : u0 = url := by simpa using h
        have : ¬ u == u0 := by simp [hu, hne]
        simp [updateHub, h, List.lookup, this]
      · by_cases h2 : u == u0 <;> simp [updateHub, h, List.lookup, h2, ih]

/-- Default-constructed HubInfo (types.h field initialisers). -/
def HubInfo.empty : HubInfo := ⟨[], [], [], 0, 0, false, false⟩

/-- Session for the counterexample table: one hub with no results. -/
def hubA : HubData :=
  ⟨some 1, { HubInfo.empty with url := "dchub://a".toList }, [], [], []⟩

/-- Counterexample table holding exactly the one session hubA. -/
def exTable : HubTable := [("dchub://a".toList, hubA)]

/-- A search result whose hub url matches no session of exTable. -/
def strayResult : SearchResultInfo :=
  ⟨"f".toList, 1, [], [], "dchub://b".toList, [], 0, 0, false⟩

/-- C2 counterexample: a result whose hub url matches no cached session
does not leave the other sessions' result lists unchanged — the code
appends it to the first session of the table. -/
theorem stashSearchResult_misroutes_unknown_hub :
    List.lookup ("dchub://b".toList) exTable = none ∧
    ¬ (List.lookup ("dchub://a".toList) (stashSearchResult exTable strayResult)).map
        HubData.searchResults =
      (List.lookup ("dchub://a".toList) exTable).map HubData.searchResults := by
  constructor
  · decide
  · decide

/-- C2 amended: stashSearchResult preserves the set of session keys;
when the owning session (the one whose url equals the result's hub
url) is present, the result is appended to exactly that session's list
and every other session is unchanged; when no session matches, an
empty table is unchanged, and otherwise the result is appended to the
first session of the table (every later session unchanged). -/
theorem stashSearchResult_routing_amended :
    ∀ (hubs : HubTable) (info : SearchResultInfo),
      ((stashSearchResult hubs info).map Prod.fst = hubs.map Prod.fst) ∧
      (∀ hd, List.lookup info.hubUrl hubs = some hd →
        List.lookup info.hubUrl (stashSearchResult hubs info) =
          some { hd with searchResults := hd.searchResults ++ [info] } ∧
        ∀ u, u ≠ info.hubUrl →
          List.lookup u (stashSearchResult hubs info) = List.lookup u hubs) ∧
      (List.lookup info.hubUrl hubs = none →
        (hubs = [] → stashSearchResult hubs info = []) ∧
        (∀ u0 hd0 rest, hubs = (u0, hd0) :: rest →
          stashSearchResult hubs info =
            (u0, { hd0 with searchResults := hd0.searchResults ++ [info] }) :: rest)) := by
  intro hubs info
  by_cases h : (List.lookup info.hubUrl hubs).isSome
  · refine ⟨?_, ?_, ?_⟩
    · simp [stashSearchResult, h, updateHub_keys]
    · intro hd hl
      constructor
      · simp [stashSearchResult, h, lookup_updateHub_self, hl]
      · intro u hu
        simp [stashSearchResult, h, lookup_updateHub_other _ _ _ _ hu]
    · intro hnone
      rw [hnone] at h
      simp at h
  · have hnone : List.lookup info.hubUrl hubs = none :=
      Option.not_isSome_iff_eq_none.mp h
    refine ⟨?_, ?_, ?_⟩
    · cases hubs with
      | nil => simp [stashSearchResult]
      | cons p rest =>
          obtain ⟨u0, hd0⟩ := p
          simp [stashSearchResult, hnone]
    · intro hd hl
      rw [hnone] at hl
      cases hl
    · intro _
      constructor
      · intro he
        subst he
        simp [stashSearchResult]
      · intro u0 hd0 rest he
        subst he
        simp [stashSearchResult, hnone]

/-- C2 witness: the amended theorem applied at the concrete table. -/
theorem stashSearchResult_routing_amended_witness :
    List.lookup ("dchub://b".toList) exTable = none ∧
    stashSearchResult exTable strayResult =
      [("dchub://a".toList,
        { hubA with searchResults := hubA.searchResults ++ [strayResult] })] :=
  ⟨by decide,
    ((stashSearchResult_routing_amended exTable strayResult).2.2
      (by decide)).2 _ _ _ rfl⟩

/-- Chat-history capacity actually enforced by the eviction loop in
BridgeListeners::stashChat (bridge_listeners.cpp line 30, MAX_HISTORY).
Note bridge.h also declares MAX_CHAT_LINES = 100, which no code uses. -/
def MAX_HISTORY : Nat := 500

/-- Eviction loop of stashChat (bridge_listeners.cpp lines 31-33):
while the history is longer than the capacity, pop the front entry. -/
def evictFront (h : List Str) : List Str :=
  if hgt : h.length > MAX_HISTORY then evictFront (h.drop 1) else h
termination_by h.length
decreasing_by
  have h0 : 0 < h.length := Nat.lt_of_le_of_lt (Nat.zero_le _) hgt
  simp only [List.length_drop]
  omega

/-- Formatting of a stashed chat line (bridge_listeners.cpp lines
20-25): an angle-bracketed nick when present, the bare text otherwise. -/
def formatChat (nick text : Str) : Str :=
  if nick = [] then text
  else "<".toList ++ nick ++ "> ".toList ++ text

/-- Append one line to a session's chat history and evict from the
front down to capacity (stashChat push_back plus its while loop). -/
def chatAppend (h : List Str) (line : Str) : List Str :=
  evictFront (h ++ [line])

/-- BridgeListeners::stashChat (bridge_listeners.cpp lines 11-34):
locate the session by hub url (missing session means no effect),
format the line and append it to that session's history with front
eviction. -/
def stashChat (hubs : HubTable) (url nick text : Str) : HubTable :=
  match List.lookup url hubs with
  | none => hubs
  | some _ =>
      updateHub hubs url (fun hd =>
        { hd with chatHistory := chatAppend hd.chatHistory (formatChat nick text) })

/-- The last n entries of a list (everything after dropping the excess
from the front). -/
def lastN (l : List Str) (n : Nat) : List Str := l.drop (l.length - n)

theorem evictFront_eq_drop :
    ∀ h : List Str, evictFront h = h.drop (h.length - MAX_HISTORY) := by
  suffices H : ∀ (n : Nat) (h : List Str), h.length = n →
      evictFront h = h.drop (h.length - MAX_HISTORY) by
    intro h
    exact H h.length h rfl
  intro n
  induction n using Nat.strong_induction_on with
  | _ n ih =>
    intro h hn
    rw [evictFront]
    split
    next hgt =>
      have h0 : 0 < h.length := Nat.lt_of_le_of_lt (Nat.zero_le _) hgt
      have hlt : (h.drop 1).length < n := by
        simp only [List.length_drop]
        omega
      rw [ih (h.drop 1).length hlt (h.drop 1) rfl, List.drop_drop]
      have harg : 1 + ((h.drop 1).length - MAX_HISTORY) = h.length - MAX_HISTORY := by
        simp only [List.length_drop]
        omega
      rw [harg]
    next hng =>
      have hz : h.length - MAX_HISTORY = 0 := by omega
      simp [hz]

theorem chatAppend_eq_drop (h : List Str) (line : Str) :
    chatAppend h line = (h ++ [line]).drop ((h.length + 1) - MAX_HISTORY) := by
  unfold chatAppend
  rw [evictFront_eq_drop]
  simp

theorem chatAppend_length_le (h : List Str) (line : Str) :
    (chatAppend h line).length ≤ MAX_HISTORY := by
  rw [chatAppend_eq_drop]
  simp only [List.length_drop]
  have h1 : (h ++ [line]).length = h.length + 1 := by simp
  rw [h1]
  have hM : MAX_HISTORY = 500 := rfl
  omega

theorem lastN_drop (l : List Str) (k n : Nat) (hk : k + n ≤ l.length) :
    lastN (l.drop k) n = lastN l n := by
  unfold lastN
  rw [List.length_drop, List.drop_drop]
  congr 1
  omega

theorem foldl_chatAppend_lastN :
    ∀ (msgs : List Str) (h : List Str), h.length ≤ MAX_HISTORY →
      List.foldl chatAppend h msgs = lastN (h ++ msgs) MAX_HISTORY := by
  intro msgs
  induction msgs with
  | nil =>
      intro h hh
      simp [lastN, Nat.sub_eq_zero_of_le hh]
  | cons m ms ih =>
      intro h hh
      simp only [List.foldl_cons]
      rw [ih _ (chatAppend_length_le h m), chatAppend_eq_drop]
      have hle : (h.length + 1) - MAX_HISTORY ≤ (h ++ [m]).length := by
        simp only [List.length_append, List.length_cons, List.length_nil]
        omega
      rw [← List.drop_append_of_le_length hle]
      by_cases hc : h.length + 1 ≤ MAX_HISTORY
      · have hz : (h.length + 1) - MAX_HISTORY = 0 := by omega
        have ha : (h ++ [m]) ++ ms = h ++ m :: ms := by simp
        rw [hz, List.drop_zero, ha]
      · have hk : ((h.length + 1) - MAX_HISTORY) + MAX_HISTORY ≤
            ((h ++ [m]) ++ ms).length := by
          simp only [List.length_append, List.length_cons, List.length_nil]
          omega
        rw [lastN_drop _ _ _ hk]
        have ha : (h ++ [m]) ++ ms = h ++ m :: ms := by simp
        rw [ha]

/-- C6: the chat history never exceeds the enforced capacity; once at
capacity an append evicts exactly the oldest line; a run of more than
capacity-many appends (from an empty history) leaves exactly the most
recent capacity-many lines in arrival order; and stashChat applies
exactly this append to the owning session's history. -/
theorem chat_history_fifo_bounded :
    (∀ (h : List Str) (line : Str),
      (chatAppend h line).length ≤ MAX_HISTORY) ∧
    (∀ (h : List Str) (line : Str), h.length = MAX_HISTORY →
      chatAppend h line = h.drop 1 ++ [line]) ∧
    (∀ msgs : List Str, MAX_HISTORY < msgs.length →
      List.foldl chatAppend [] msgs = msgs.drop (msgs.length - MAX_HISTORY)) ∧
    (∀ (hubs : HubTable) (url nick text : Str) (hd : HubData),
      List.lookup url hubs = some hd →
      List.lookup url (stashChat hubs url nick text) =
        some { hd with
          chatHistory := chatAppend hd.chatHistory (formatChat nick text) }) := by
  refine ⟨chatAppend_length_le, ?_, ?_, ?_⟩
  · intro h line hcap
    rw [chatAppend_eq_drop, hcap]
    have hM : MAX_HISTORY = 500 := rfl
    have h1 : MAX_HISTORY + 1 - MAX_HISTORY = 1 := by omega
    rw [h1]
    exact List.drop_append_of_le_length (by omega)
  · intro msgs hlen
    rw [foldl_chatAppend_lastN msgs [] (by simp)]
    simp [lastN]
  · intro hubs url nick text hd hl
    unfold stashChat
    rw [hl]
    simp [lookup_updateHub_self, hl]

set_option maxRecDepth 8192 in
/-- C6 witness: the theorem applied at a capacity-sized history, a run
of 501 appends and the concrete session table. -/
theorem chat_history_fifo_bounded_witness :
    ((List.replicate MAX_HISTORY ("x".toList)).length = MAX_HISTORY ∧
      chatAppend (List.replicate MAX_HISTORY ("x".toList)) ("y".toList) =
        (List.replicate MAX_HISTORY ("x".toList)).drop 1 ++ ["y".toList]) ∧
    (MAX_HISTORY < (List.replicate (MAX_HISTORY + 1) ("m".toList)).length ∧
      List.foldl chatAppend [] (List.replicate (MAX_HISTORY + 1) ("m".toList)) =
        (List.replicate (MAX_HISTORY + 1) ("m".toList)).drop
          ((List.replicate (MAX_HISTORY + 1) ("m".toList)).length - MAX_HISTORY)) ∧
    List.lookup ("dchub://a".toList)
        (stashChat exTable ("dchub://a".toList) "bob".toList "hi".toList) =
      some { hubA with
        chatHistory :=
          chatAppend hubA.chatHistory (formatChat "bob".toList "hi".toList) } :=
  ⟨⟨by simp, chat_history_fifo_bounded.2.1 _ _ (by simp)⟩,
    ⟨by simp, chat_history_fifo_bounded.2.2.1 _ (by simp)⟩,
    chat_history_fifo_bounded.2.2.2 exTable _ _ _ hubA (by decide)⟩

/-- Actions of one event-router handler, in program order: a cache
update performed under the table lock, or an invocation of the single
registered sink.  The tag pairs each sink invocation with the cache
update belonging to the same translated event. -/
inductive RouterAction where
  | cacheUpdate (tag : Nat)
  | sinkCall (tag : Nat)
deriving DecidableEq

/-- Scan-core of the ordering check: walking the trace left to right
with the tags of already-seen sink calls, fail as soon as a cache
update carries the tag of a sink call that already happened. -/
def cacheBeforeSinkAux : List Nat → List RouterAction → Bool
  | _, [] => true
  | seen, RouterAction.cacheUpdate t :: rest =>
      if t ∈ seen then false else cacheBeforeSinkAux seen rest
  | seen, RouterAction.sinkCall t :: rest =>
      cacheBeforeSinkAux (t :: seen) rest

/-- A trace is well ordered when no cache update of a translated event
occurs after that event's sink call. -/
def cacheBeforeSink (tr : List RouterAction) : Bool := cacheBeforeSinkAux [] tr

/-- Trace of BridgeListeners::on(Message) (bridge_listeners.h lines
226-249): stashChat first, then, when a callback is registered, exactly
one sink invocation (private or public). -/
def onMessageTrace (hasCb : Bool) : List RouterAction :=
  RouterAction.cacheUpdate 0 ::
    (if hasCb then [RouterAction.sinkCall 0] else [])

/-- Trace of BridgeListeners::on(SR) (bridge_listeners.h lines
298-309): stashSearchResult first, then the sink. -/
def onSRTrace (hasCb : Bool) : List RouterAction :=
  RouterAction.cacheUpdate 0 ::
    (if hasCb then [RouterAction.sinkCall 0] else [])

/-- Trace of BridgeListeners::on(UserUpdated) (bridge_listeners.h lines
257-262): stashUserUpdate first, then the sink. -/
def onUserUpdatedTrace (hasCb : Bool) : List RouterAction :=
  RouterAction.cacheUpdate 0 ::
    (if hasCb then [RouterAction.sinkCall 0] else [])

/-- Trace of BridgeListeners::on(UserRemoved) (bridge_listeners.h lines
273-278): stashUserRemove first, then the sink. -/
def onUserRemovedTrace (hasCb : Bool) : List RouterAction :=
  RouterAction.cacheUpdate 0 ::
    (if hasCb then [RouterAction.sinkCall 0] else [])

/-- Per-user loop body of BridgeListeners::on(UsersUpdated)
(bridge_listeners.h lines 264-271): for each listed user, in order,
stash its update and then invoke the sink for it. -/
def onUsersUpdatedAux (hasCb : Bool) : Nat → Nat → List RouterAction
  | _, 0 => []
  | k, Nat.succ n =>
      RouterAction.cacheUpdate k ::
        ((if hasCb then [RouterAction.sinkCall k] else []) ++
          onUsersUpdatedAux hasCb (k + 1) n)

/-- Trace of on(UsersUpdated) over a list of n users. -/
def onUsersUpdatedTrace (n : Nat) (hasCb : Bool) : List RouterAction :=
  onUsersUpdatedAux hasCb 0 n

/-- Trace of the handlers that perform no cache update at all
(Connecting, Connected, Failed, Redirect, GetPassword, HubUpdated,
NickTaken, HubFull, StatusMessage, the queue handlers and the transfer
handlers): just the sink, when registered. -/
def sinkOnlyTrace (hasCb : Bool) : List RouterAction :=
  if hasCb then [RouterAction.sinkCall 0] else []

/-- DCBridge::getChatHistory (bridge.cpp lines 492-509): nothing when
not initialized or the session is unknown; otherwise the suffix of the
session's history starting maxLines from the end when 0 < maxLines <
length, the whole history otherwise. -/
def getChatHistory (initialized : Bool) (hubs : HubTable) (url : Str)
    (maxLines : Int) : List Str :=
  if !initialized then []
  else
    match List.lookup url hubs with
    | none => []
    | some hd =>
        let start : Nat :=
          if 0 < maxLines ∧ maxLines < (hd.chatHistory.length : Int) then
            hd.chatHistory.length - maxLines.toNat
          else 0
        hd.chatHistory.drop start

theorem usersUpdated_ordered :
    ∀ (n k : Nat) (cb : Bool) (seen : List Nat),
      (∀ t ∈ seen, t < k) →
      cacheBeforeSinkAux seen (onUsersUpdatedAux cb k n) = true := by
  intro n
  induction n with
  | zero =>
      intro k cb seen hseen
      rfl
  | succ n ih =>
      intro k cb seen hseen
      have hkn : k ∉ seen := fun hc => absurd (hseen k hc) (lt_irrefl k)
      cases cb with
      | true =>
          simp only [onUsersUpdatedAux, if_pos, List.singleton_append,
            cacheBeforeSinkAux, if_neg hkn]
          exact ih (k + 1) true (k :: seen) (by
            intro t ht
            rcases List.mem_cons.mp ht with h1 | h2
            · omega
            · exact Nat.lt_trans (hseen t h2) (Nat.lt_succ_self k))
      | false =>
          simp only [onUsersUpdatedAux, if_neg, List.nil_append,
            cacheBeforeSinkAux, if_neg hkn]
          exact ih (k + 1) false seen (by
            intro t ht
            exact Nat.lt_trans (hseen t ht) (Nat.lt_succ_self k))

/-- C7: in every handler of the event router, the cache update tied to
a translated event precedes that event's sink invocation (handlers
with no cache effect are vacuously ordered), and the chat line a
Message event appends is the last entry of the history that a
getChatHistory call made from within the sink callback returns, for
every requested line bound. -/
theorem router_cache_before_sink :
    (∀ cb : Bool, cacheBeforeSink (onMessageTrace cb) = true) ∧
    (∀ cb : Bool, cacheBeforeSink (onSRTrace cb) = true) ∧
    (∀ cb : Bool, cacheBeforeSink (onUserUpdatedTrace cb) = true) ∧
    (∀ cb : Bool, cacheBeforeSink (onUserRemovedTrace cb) = true) ∧
    (∀ (n : Nat) (cb : Bool), cacheBeforeSink (onUsersUpdatedTrace n cb) = true) ∧
    (∀ cb : Bool, cacheBeforeSink (sinkOnlyTrace cb) = true) ∧
    (∀ (hubs : HubTable) (url nick text : Str) (m : Int) (hd : HubData),
      List.lookup url hubs = some hd →
      (getChatHistory true (stashChat hubs url nick text) url m).getLast? =
        some (formatChat nick text)) := by
  refine ⟨by decide, by decide, by decide, by decide, ?_, by decide, ?_⟩
  · intro n cb
    exact usersUpdated_ordered n 0 cb [] (by intro t ht; cases ht)
  · intro hubs url nick text m hd hl
    have hstash : List.lookup url (stashChat hubs url nick text) =
        some { hd with
          chatHistory := chatAppend hd.chatHistory (formatChat nick text) } := by
      unfold stashChat
      rw [hl]
      simp [lookup_updateHub_self, hl]
    have hM : MAX_HISTORY = 500 := rfl
    have hform : chatAppend hd.chatHistory (formatChat nick text) =
        hd.chatHistory.drop ((hd.chatHistory.length + 1) - MAX_HISTORY) ++
          [formatChat nick text] := by
      rw [chatAppend_eq_drop]
      exact List.drop_append_of_le_length (by omega)
    simp only [getChatHistory, Bool.not_true, Bool.false_eq_true, if_false,
      hstash]
    rw [hform]
    set front := hd.chatHistory.drop ((hd.chatHistory.length + 1) - MAX_HISTORY)
      with hfront
    have hlen : (front ++ [formatChat nick text]).length = front.length + 1 := by
      simp
    set L := front ++ [formatChat nick text] with hLdef
    have hstart :
        (if 0 < m ∧ m < (L.length : Int) then L.length - m.toNat else 0) ≤
          front.length := by
      split
      next hc =>
        rw [hlen]
        omega
      next hc =>
        exact Nat.zero_le _
    rw [List.drop_append_of_le_length hstart]
    exact List.getLast?_concat _

set_option maxRecDepth 8192 in
/-- C7 witness: the theorem applied at the concrete session table with
a concrete message and the default line bound of 50. -/
theorem router_cache_before_sink_witness :
    List.lookup ("dchub://a".toList) exTable = some hubA ∧
    (getChatHistory true
        (stashChat exTable ("dchub://a".toList) "bob".toList "hi".toList)
        ("dchub://a".toList) 50).getLast? =
      some (formatChat "bob".toList "hi".toList) :=
  ⟨by decide,
    router_cache_before_sink.2.2.2.2.2.2 exTable _ _ _ 50 hubA (by decide)⟩

/-- A file node of a parsed listing (DirectoryListing::File as the
bridge reads it: name, size and base-32 content hash). -/
structure FileNode where
  name : Str
  size : Int
  tth : Str
deriving DecidableEq

/-- A directory node of a parsed listing (DirectoryListing::Directory
as the bridge reads it: name, child directories, child files). -/
inductive DirNode where
  | node (name : Str) (dirs : List DirNode) (files : List FileNode)

/-- Name of a directory node. -/
def DirNode.name : DirNode → Str
  | DirNode.node n _ _ => n

/-- Child directories of a directory node. -/
def DirNode.dirs : DirNode → List DirNode
  | DirNode.node _ d _ => d

/-- Child files of a directory node. -/
def DirNode.files : DirNode → List FileNode
  | DirNode.node _ _ f => f

/-- Sum of the sizes of a list of file nodes. -/
def filesTotal : List FileNode → Int
  | [] => 0
  | f :: rest => f.size + filesTotal rest

mutual

/-- Recursive total size of a directory (the engine-side
Directory::getTotalSize the browse code reads for directory rows). -/
def dirTotalSize : DirNode → Int
  | DirNode.node _ ds fs => filesTotal fs + dirsTotal ds

/-- Sum of the recursive total sizes of a list of directories. -/
def dirsTotal : List DirNode → Int
  | [] => 0
  | d :: rest => dirTotalSize d + dirsTotal rest

end

/-- Accumulator pass of the path tokenizer: split at the separator and
keep only non-empty tokens, exactly what the browse loop sees after it
skips empty tokens (StringTokenizer plus the continue on empties). -/
def tokensAux (sep : Char) : Str → Str → List Str
  | [], acc => if acc = [] then [] else [acc.reverse]
  | c :: rest, acc =>
      if c == sep then
        if acc = [] then tokensAux sep rest []
        else acc.reverse :: tokensAux sep rest []
      else tokensAux sep rest (c :: acc)

/-- Non-empty slash-delimited segments of a browse path. -/
def pathTokens (s : Str) : List Str := tokensAux '/' s []

/-- First child directory carrying exactly (case-sensitively) the
token's name, as the inner for-loop of browseFileList finds it. -/
def findSubdir (tok : Str) : List DirNode → Option DirNode
  | [] => none
  | d :: rest => if d.name = tok then some d else findSubdir tok rest

/-- Walk of the token list performed by the navigation loop of
DCBridge::browseFileList (bridge.cpp lines 864-878): descend into the
matching child per token; an unmatched token aborts with none. -/
def walkPath : DirNode → List Str → Option DirNode
  | d, [] => some d
  | d, t :: ts =>
      match findSubdir t d.dirs with
      | none => none
      | some d2 => walkPath d2 ts

/-- Rows produced for the resolved node (bridge.cpp lines 880-898):
its child directories first, then its child files. -/
def entriesOf (d : DirNode) : List FileListEntry :=
  d.dirs.map (fun c => ⟨c.name, dirTotalSize c, [], true⟩) ++
    d.files.map (fun f => ⟨f.name, f.size, f.tth, false⟩)

/-- The open-listing store m_fileLists, keyed by listing id. -/
abbrev ListingTable := List (Str × DirNode)

/-- DCBridge::browseFileList (bridge.cpp lines 849-899): empty when not
initialized or the listing is unknown; otherwise navigate from the
root unless the path is the bare slash or empty, returning empty on
any unmatched segment, and finally list the resolved node's immediate
child directories and files. -/
def browseFileList (initialized : Bool) (fileLists : ListingTable)
    (fileListId directory : Str) : List FileListEntry :=
  if !initialized then []
  else
    match List.lookup fileListId fileLists with
    | none => []
    | some root =>
        if directory ≠ "/".toList ∧ directory ≠ [] then
          match walkPath root (pathTokens directory) with
          | none => []
          | some d => entriesOf d
        else entriesOf root

/-- C8: for every open listing and path, browseFileList equals the
case-sensitive segment walk followed by listing the resolved node's
immediate children: an unmatched segment gives the empty result, and
on a full match the result has exactly one row per immediate child
directory and file, each row's name being the name of an immediate
child of the resolved node (never a deeper descendant). -/
theorem browse_immediate_children :
    ∀ (fls : ListingTable) (id path : Str) (root : DirNode),
      List.lookup id fls = some root →
      (browseFileList true fls id path =
        match walkPath root (pathTokens path) with
        | none => []
        | some d => entriesOf d) ∧
      (∀ d, walkPath root (pathTokens path) = some d →
        (browseFileList true fls id path).length =
          d.dirs.length + d.files.length ∧
        ∀ e ∈ browseFileList true fls id path,
          (e.isDirectory = true ∧ e.name ∈ d.dirs.map DirNode.name) ∨
          (e.isDirectory = false ∧ e.name ∈ d.files.map FileNode.name)) := by
  intro fls id path root hl
  have h1 : browseFileList true fls id path =
      (if path ≠ "/".toList ∧ path ≠ [] then
        match walkPath root (pathTokens path) with
        | none => []
        | some d => entriesOf d
      else entriesOf root) := by
    unfold browseFileList
    rw [hl]
    rfl
  have hmain : browseFileList true fls id path =
      match walkPath root (pathTokens path) with
      | none => []
      | some d => entriesOf d := by
    by_cases hc : path ≠ "/".toList ∧ path ≠ []
    · rw [h1, if_pos hc]
    · rw [h1, if_neg hc]
      have hor : path = "/".toList ∨ path = [] := by
        by_contra hnc
        push_neg at hnc
        exact hc ⟨hnc.1, hnc.2⟩
      rcases hor with h2 | h2 <;> subst h2 <;> rfl
  refine ⟨hmain, ?_⟩
  intro d hw
  have hb : browseFileList true fls id path = entriesOf d := by
    rw [hmain, hw]
  constructor
  · rw [hb]
    simp [entriesOf]
  · intro e he
    rw [hb] at he
    unfold entriesOf at he
    rcases List.mem_append.mp he with hdir | hfile
    · left
      rcases List.mem_map.mp hdir with ⟨c, hc, hce⟩
      subst hce
      exact ⟨rfl, List.mem_map.mpr ⟨c, hc, rfl⟩⟩
    · right
      rcases List.mem_map.mp hfile with ⟨f, hf, hfe⟩
      subst hfe
      exact ⟨rfl, List.mem_map.mpr ⟨f, hf, rfl⟩⟩

/-- A leaf file for the browse example. -/
def fileF : FileNode := ⟨"f.txt".toList, 7, "TTHF".toList⟩

/-- Nested subdirectory c of the browse example. -/
def dirC : DirNode := DirNode.node ("c".toList) [] []

/-- Directory a of the browse example, holding c and f.txt. -/
def dirA : DirNode := DirNode.node ("a".toList) [dirC] [fileF]

/-- Root of the browse example tree. -/
def rootT : DirNode := DirNode.node [] [dirA] []

/-- Listing store of the browse example. -/
def exListings : ListingTable := [("l1".toList, rootT)]

set_option maxRecDepth 8192 in
/-- C8 witness: the theorem applied at the concrete listing, checking
the section-8 cases: browsing /a lists exactly a's immediate children
(c and f.txt, no grandchildren) and browsing /a/b is empty. -/
theorem browse_immediate_children_witness :
    (browseFileList true exListings ("l1".toList) ("/a".toList) =
      match walkPath rootT (pathTokens ("/a".toList)) with
      | none => []
      | some d => entriesOf d) ∧
    browseFileList true exListings ("l1".toList) ("/a".toList) =
      [⟨"c".toList, 0, [], true⟩, ⟨"f.txt".toList, 7, "TTHF".toList, false⟩] ∧
    (walkPath rootT (pathTokens ("/a/b".toList))).isNone = true ∧
    browseFileList true exListings ("l1".toList) ("/a/b".toList) = [] :=
  ⟨(browse_immediate_children exListings _ _ rootT (by rfl)).1,
    by decide,
    by decide,
    by
      rw [(browse_immediate_children exListings ("l1".toList)
        ("/a/b".toList) rootT (by rfl)).1]
      decide⟩

/-- The state the lifecycle and connection operations read and write:
the instance's initialized flag (m_initialized), session table
(m_hubs) and listing store (m_fileLists), together with the
process-wide engine-running flag (g_dcppStarted). -/
structure GatewayState where
  initialized : Bool
  hubs : HubTable
  fileLists : ListingTable
  gStarted : Bool

/-- Session-table entry created by connectHub for a fresh url: the
native handle plus a snapshot holding only the url (bridge.cpp lines
399-405). -/
def newHub (url : Str) (c : Nat) : HubData :=
  { client := some c,
    cachedInfo := { HubInfo.empty with url := url },
    chatHistory := [], searchResults := [], users := [] }

/-- DCBridge::connectHub (bridge.cpp lines 375-406), state level: do
nothing when not initialized; do nothing when the url already has a
table entry; otherwise ask the engine for a client (newClient none
models ClientManager::getClient failing, which aborts with no entry),
perform the one native connect and insert the entry.  The second
component counts the native connect calls performed. -/
def connectHubOp (s : GatewayState) (url : Str) (newClient : Option Nat) :
    GatewayState × Nat :=
  if s.initialized = false then (s, 0)
  else if (List.lookup url s.hubs).isSome then (s, 0)
  else
    match newClient with
    | none => (s, 0)
    | some c => ({ s with hubs := s.hubs ++ [(url, newHub url c)] }, 1)

/-- Number of session-table entries stored under a url. -/
def countKey (hubs : HubTable) (url : Str) : Nat :=
  (hubs.filter (fun p => p.1 == url)).length

instance : Inhabited HubInfo := ⟨HubInfo.empty⟩

instance : Inhabited HubData := ⟨⟨none, HubInfo.empty, [], [], []⟩⟩

theorem lookup_isSome_iff_countKey_pos (hubs : HubTable) (url : Str) :
    (List.lookup url hubs).isSome = true ↔ 0 < countKey hubs url := by
  induction hubs with
  | nil => simp [countKey]
  | cons p rest ih =>
      obtain ⟨u, hd⟩ := p
      by_cases hu : u = url
      · subst hu
        simp [List.lookup, countKey]
      · have h1 : (url == u) = false := by
          simp [Ne.symm hu]
        have h2 : (u == url) = false := by
          simp [hu]
        simp only [List.lookup, h1, countKey, List.filter_cons, h2,
          Bool.false_eq_true, if_false]
        simpa [countKey] using ih

theorem countKey_append (a b : HubTable) (url : Str) :
    countKey (a ++ b) url = countKey a url + countKey b url := by
  simp [countKey, List.filter_append]

/-- C9: starting from any state whose table (as a map) holds at most
one entry for the url, if after the first connectHub call a session
for the url exists, then after a second call there is exactly one
table entry for that url and at most one native connect call was made
across the two invocations. -/
theorem connectHub_idempotent :
    ∀ (s : GatewayState) (url : Str) (c1 c2 : Option Nat),
      s.initialized = true →
      countKey s.hubs url ≤ 1 →
      (List.lookup url (connectHubOp s url c1).1.hubs).isSome = true →
      countKey (connectHubOp (connectHubOp s url c1).1 url c2).1.hubs url = 1 ∧
      (connectHubOp s url c1).2 +
        (connectHubOp (connectHubOp s url c1).1 url c2).2 ≤ 1 := by
  intro s url c1 c2 hinit hcnt hsome
  by_cases h0 : (List.lookup url s.hubs).isSome = true
  · have hr1 : connectHubOp s url c1 = (s, 0) := by
      unfold connectHubOp
      rw [hinit, if_neg (by simp), if_pos h0]
    rw [hr1] at hsome
    have hsome' : (List.lookup url s.hubs).isSome = true := hsome
    have hpos : 0 < countKey s.hubs url :=
      (lookup_isSome_iff_countKey_pos s.hubs url).mp hsome'
    have hr2 : connectHubOp s url c2 = (s, 0) := by
      unfold connectHubOp
      rw [hinit, if_neg (by simp), if_pos h0]
    constructor
    · rw [hr1]
      show countKey (connectHubOp s url c2).1.hubs url = 1
      rw [hr2]
      show countKey s.hubs url = 1
      omega
    · rw [hr1]
      show 0 + (connectHubOp s url c2).2 ≤ 1
      rw [hr2]
      show 0 + 0 ≤ 1
      decide
  · have hz : countKey s.hubs url = 0 := by
      by_contra hnz
      exact h0 ((lookup_isSome_iff_countKey_pos s.hubs url).mpr
        (Nat.pos_of_ne_zero hnz))
    cases c1 with
    | none =>
        have hr1 : connectHubOp s url none = (s, 0) := by
          unfold connectHubOp
          rw [hinit, if_neg (by simp), if_neg h0]
        rw [hr1] at hsome
        exact absurd hsome h0
    | some c =>
        have hr1 : connectHubOp s url (some c) =
            ({ s with hubs := s.hubs ++ [(url, newHub url c)] }, 1) := by
          unfold connectHubOp
          rw [hinit, if_neg (by simp), if_neg h0]
        have hcnt1 :
            countKey (s.hubs ++ [(url, newHub url c)]) url = 1 := by
          rw [countKey_append, hz]
          simp [countKey]
        have hsome1 :
            (List.lookup url (s.hubs ++ [(url, newHub url c)])).isSome = true :=
          (lookup_isSome_iff_countKey_pos _ _).mpr (by omega)
        have hr2 : connectHubOp
            ({ s with hubs := s.hubs ++ [(url, newHub url c)] }) url c2 =
            ({ s with hubs := s.hubs ++ [(url, newHub url c)] }, 0) := by
          unfold connectHubOp
          rw [show ({ s with
              hubs := s.hubs ++ [(url, newHub url c)] } : GatewayState).initialized =
            true from hinit]
          rw [if_neg (by simp)]
          rw [if_pos (by exact hsome1)]
    
        constructor
        · rw [hr1]
          show countKey (connectHubOp
            ({ s with hubs := s.hubs ++ [(url, newHub url c)] }) url c2).1.hubs url = 1
          rw [hr2]
          exact hcnt1
        · rw [hr1]
          show 1 + (connectHubOp
            ({ s with hubs := s.hubs ++ [(url, newHub url c)] }) url c2).2 ≤ 1
          rw [hr2]
          show 1 + 0 ≤ 1
          decide

set_option maxRecDepth 8192 in
/-- C9 witness: the theorem applied at the empty initialized state with
two identical connect calls. -/
theorem connectHub_idempotent_witness :
    (GatewayState.mk true [] [] true).initialized = true ∧
    countKey (GatewayState.mk true [] [] true).hubs ("dchub://h".toList) ≤ 1 ∧
    (List.lookup ("dchub://h".toList)
      (connectHubOp (GatewayState.mk true [] [] true)
        ("dchub://h".toList) (some 7)).1.hubs).isSome = true ∧
    countKey (connectHubOp
        (connectHubOp (GatewayState.mk true [] [] true)
          ("dchub://h".toList) (some 7)).1
        ("dchub://h".toList) (some 8)).1.hubs ("dchub://h".toList) = 1 ∧
    (connectHubOp (GatewayState.mk true [] [] true)
        ("dchub://h".toList) (some 7)).2 +
      (connectHubOp
        (connectHubOp (GatewayState.mk true [] [] true)
          ("dchub://h".toList) (some 7)).1
        ("dchub://h".toList) (some 8)).2 ≤ 1 :=
  ⟨rfl, by decide, by decide,
    (connectHub_idempotent _ _ (some 7) (some 8) rfl (by decide) (by decide)).1,
    (connectHub_idempotent _ _ (some 7) (some 8) rfl (by decide) (by decide)).2⟩

/-- Outcome of the shutdown sequence: the final state, the native
session handles that were disconnected and released (one putClient
each), and the listing ids whose trees were destroyed. -/
structure ShutdownResult where
  state : GatewayState
  releasedClients : List Nat
  destroyedListings : List Str

/-- DCBridge::shutdown (bridge.cpp lines 281-355), state level: no-op
when not initialized; otherwise destroy every open listing and clear
the listing store, snapshot and clear the session table, disconnect
and release every non-null captured handle, run the engine teardown,
clear the process-wide flag and leave the instance uninitialized. -/
def shutdownOp (s : GatewayState) : ShutdownResult :=
  if s.initialized = false then ⟨s, [], []⟩
  else
    { state :=
        { initialized := false, hubs := [], fileLists := [],
          gStarted := false },
      releasedClients := s.hubs.filterMap (fun p => p.2.client),
      destroyedListings := s.fileLists.map Prod.fst }

/-- DCBridge destructor (bridge.cpp lines 183-187): run the full
shutdown when the instance is still initialized, otherwise nothing. -/
def destructOp (s : GatewayState) : ShutdownResult :=
  if s.initialized then shutdownOp s else ⟨s, [], []⟩

/-- DCBridge::initialize (bridge.cpp lines 193-279), state level:
already-initialized instances succeed idempotently; a set process-wide
flag makes it fail untouched; a config-directory creation failure
(fsOk false models the filesystem exception) fails untouched;
otherwise the engine is started, the flag set and the instance becomes
initialized.  The second component is the returned Bool. -/
def initOp (s : GatewayState) (fsOk : Bool) : GatewayState × Bool :=
  if s.initialized then (s, true)
  else if s.gStarted then (s, false)
  else if fsOk = false then (s, false)
  else ({ s with initialized := true, gStarted := true }, true)

/-- A freshly constructed DCBridge instance next to a process-wide
flag value g: not initialized, empty tables. -/
def freshInstance (g : Bool) : GatewayState := ⟨false, [], [], g⟩

/-- C10: destroying an instance still in the Running state empties the
session table and listing store, disconnects and releases every
session's non-null handle, destroys every open listing, clears the
process-wide flag, leaves the instance uninitialized, and a subsequent
initialize on a fresh instance (with the filesystem cooperating)
succeeds. -/
theorem destructor_full_shutdown :
    ∀ s : GatewayState, s.initialized = true →
      (destructOp s).state.hubs = [] ∧
      (destructOp s).state.fileLists = [] ∧
      (destructOp s).state.gStarted = false ∧
      (destructOp s).state.initialized = false ∧
      (destructOp s).releasedClients =
        s.hubs.filterMap (fun p => p.2.client) ∧
      (destructOp s).destroyedListings = s.fileLists.map Prod.fst ∧
      (initOp (freshInstance (destructOp s).state.gStarted) true).2 = true := by
  intro s hinit
  have hd : destructOp s =
      { state :=
          { initialized := false, hubs := [], fileLists := [],
            gStarted := false },
        releasedClients := s.hubs.filterMap (fun p => p.2.client),
        destroyedListings := s.fileLists.map Prod.fst } := by
    unfold destructOp shutdownOp
    rw [hinit, if_pos rfl, if_neg (by simp)]
  rw [hd]
  refine ⟨rfl, rfl, rfl, rfl, rfl, rfl, rfl⟩

/-- Concrete running state for the C10 witness: the example session
table and listing store, both flags set. -/
def sC10 : GatewayState := ⟨true, exTable, exListings, true⟩

/-- C10 witness: the theorem applied at the concrete running state. -/
theorem destructor_full_shutdown_witness :
    sC10.initialized = true ∧
    (destructOp sC10).state.hubs = [] ∧
    (destructOp sC10).state.gStarted = false ∧
    (destructOp sC10).state.initialized = false ∧
    (destructOp sC10).releasedClients =
      sC10.hubs.filterMap (fun p => p.2.client) ∧
    (initOp (freshInstance (destructOp sC10).state.gStarted) true).2 = true :=
  ⟨rfl,
    (destructor_full_shutdown sC10 rfl).1,
    (destructor_full_shutdown sC10 rfl).2.2.1,
    (destructor_full_shutdown sC10 rfl).2.2.2.1,
    (destructor_full_shutdown sC10 rfl).2.2.2.2.1,
    (destructor_full_shutdown sC10 rfl).2.2.2.2.2.2⟩

/-- One step of a control-flow trace: acquiring or releasing the table
lock m_mutex, acquiring or releasing the process-wide startup lock
g_dcppStartupMutex, or a call into the native engine's API (labelled
with the callee). -/
inductive LockAction where
  | lockTable
  | unlockTable
  | lockStartup
  | unlockStartup
  | engineCall (callee : String)
deriving DecidableEq

/-- Whether an action is a call into the native engine. -/
def isEngineCall : LockAction → Bool
  | LockAction.engineCall _ => true
  | _ => false

/-- Scan carrying the current table-lock depth: true when some engine
call happens while the table lock is held. -/
def engineUnderTableAux : Nat → List LockAction → Bool
  | _, [] => false
  | d, LockAction.lockTable :: rest => engineUnderTableAux (d + 1) rest
  | d, LockAction.unlockTable :: rest => engineUnderTableAux (d - 1) rest
  | d, LockAction.engineCall _ :: rest =>
      if 0 < d then true else engineUnderTableAux d rest
  | d, _ :: rest => engineUnderTableAux d rest

/-- An engine call occurs somewhere in the trace while the table lock
is held. -/
def engineUnderTableLock (tr : List LockAction) : Bool :=
  engineUnderTableAux 0 tr

/-- Scan carrying the table-lock depth: true when the startup lock is
acquired while the table lock is held. -/
def startupUnderTableAux : Nat → List LockAction → Bool
  | _, [] => false
  | d, LockAction.lockTable :: rest => startupUnderTableAux (d + 1) rest
  | d, LockAction.unlockTable :: rest => startupUnderTableAux (d - 1) rest
  | d, LockAction.lockStartup :: rest =>
      if 0 < d then true else startupUnderTableAux d rest
  | d, _ :: rest => startupUnderTableAux d rest

/-- The startup lock is acquired somewhere while the table lock is
held. -/
def acquiresStartupUnderTable (tr : List LockAction) : Bool :=
  startupUnderTableAux 0 tr

/-- Scan carrying the startup-lock depth: true when the table lock is
acquired while the startup lock is held. -/
def tableUnderStartupAux : Nat → List LockAction → Bool
  | _, [] => false
  | g, LockAction.lockStartup :: rest => tableUnderStartupAux (g + 1) rest
  | g, LockAction.unlockStartup :: rest => tableUnderStartupAux (g - 1) rest
  | g, LockAction.lockTable :: rest =>
      if 0 < g then true else tableUnderStartupAux g rest
  | g, _ :: rest => tableUnderStartupAux g rest

/-- The table lock is acquired somewhere while the startup lock is
held. -/
def acquiresTableUnderStartup (tr : List LockAction) : Bool :=
  tableUnderStartupAux 0 tr

/-- Trace of DCBridge::sendMessage (bridge.cpp lines 458-471): find the
client under the lock, release it, then the one engine call. -/
def sendMessageTrace (init clientFound : Bool) : List LockAction :=
  if init = false then []
  else
    LockAction.lockTable ::
      (if clientFound then
        [LockAction.unlockTable, LockAction.engineCall "Client::hubMessage"]
      else [LockAction.unlockTable])

/-- Trace of DCBridge::sendPM (bridge.cpp lines 473-490): check the
client under the lock, release, then resolve the user and send. -/
def sendPMTrace (init clientFound userFound : Bool) : List LockAction :=
  if init = false then []
  else
    LockAction.lockTable :: LockAction.unlockTable ::
      (if clientFound then
        LockAction.engineCall "ClientManager::findUser" ::
          (if userFound then
            [LockAction.engineCall "ClientManager::privateMessage"]
          else [])
      else [])

/-- Trace of DCBridge::connectHub (bridge.cpp lines 375-406): check the
table under the lock, release, call the engine unlocked, then insert
under the lock again. -/
def connectHubTrace (init already clientOk : Bool) : List LockAction :=
  if init = false then []
  else
    LockAction.lockTable :: LockAction.unlockTable ::
      (if already then []
      else
        LockAction.engineCall "ClientManager::getClient" ::
          (if clientOk then
            [LockAction.engineCall "BridgeListeners::attach",
             LockAction.engineCall "Client::connect",
             LockAction.lockTable, LockAction.unlockTable]
          else []))

/-- Trace of DCBridge::disconnectHub (bridge.cpp lines 408-426): erase
under the lock, release, then the engine calls. -/
def disconnectHubTrace (init found : Bool) : List LockAction :=
  if init = false then []
  else
    LockAction.lockTable :: LockAction.unlockTable ::
      (if found then
        [LockAction.engineCall "BridgeListeners::detach",
         LockAction.engineCall "Client::disconnect",
         LockAction.engineCall "ClientManager::putClient"]
      else [])

/-- Trace of DCBridge::downloadFileFromList (bridge.cpp lines 901-987):
everything needed is extracted under the lock (including, when the
caller's download directory is empty, the engine settings read for the
default), the lock is released, and only then is the queue-admission
engine call made. -/
def downloadFileFromListTrace
    (init listingFound pathOk fileFound userOk dlDirEmpty : Bool) :
    List LockAction :=
  if init = false then []
  else
    LockAction.lockTable ::
      (if listingFound = false then [LockAction.unlockTable]
      else if pathOk = false then [LockAction.unlockTable]
      else if fileFound = false then [LockAction.unlockTable]
      else if userOk = false then [LockAction.unlockTable]
      else
        (if dlDirEmpty then
          [LockAction.engineCall "SettingsManager download directory"]
        else []) ++
          [LockAction.unlockTable,
           LockAction.engineCall "QueueManager::add"])

/-- Trace of DCBridge::downloadDirFromList (bridge.cpp lines 989-1038):
the function-scope lock guard stays held through the settings read and
through the DirectoryListing::download engine call. -/
def downloadDirFromListTrace
    (init listingFound userOk navOk dlDirEmpty : Bool) : List LockAction :=
  if init = false then []
  else
    LockAction.lockTable ::
      (if listingFound = false then [LockAction.unlockTable]
      else if userOk = false then [LockAction.unlockTable]
      else if navOk = false then [LockAction.unlockTable]
      else
        (if dlDirEmpty then
          [LockAction.engineCall "SettingsManager download directory"]
        else []) ++
          [LockAction.engineCall "DirectoryListing::download",
           LockAction.unlockTable])

/-- Trace of DCBridge::openFileList (bridge.cpp lines 812-847): the
function-scope lock guard stays held through the engine calls that
resolve the list path and user, query the hub urls and parse the
listing file. -/
def openFileListTrace (init alreadyOpen userResolved : Bool) :
    List LockAction :=
  if init = false then []
  else
    LockAction.lockTable ::
      (if alreadyOpen then [LockAction.unlockTable]
      else
        LockAction.engineCall "Util::getListPath" ::
        LockAction.engineCall "DirectoryListing::getUserFromFilename" ::
          (if userResolved = false then [LockAction.unlockTable]
          else
            [LockAction.engineCall "ClientManager::getHubUrls",
             LockAction.engineCall "DirectoryListing::loadFile",
             LockAction.unlockTable]))

/-- Trace of DCBridge::initialize (bridge.cpp lines 193-279): the
function-scope table-lock guard is acquired first, the startup lock is
then taken inside it for the duplicate-instance check, and on the
success path the engine startup sequence also runs with the table lock
still held. -/
def initializeTrace (alreadyInit gStarted fsOk : Bool) : List LockAction :=
  if alreadyInit then []
  else
    LockAction.lockTable :: LockAction.lockStartup ::
      (if gStarted then [LockAction.unlockStartup, LockAction.unlockTable]
      else
        LockAction.unlockStartup ::
          (if fsOk = false then [LockAction.unlockTable]
          else
            [LockAction.engineCall "Util::initialize",
             LockAction.engineCall "dcpp::startup",
             LockAction.engineCall "SettingsManager nick default",
             LockAction.engineCall "TimerManager::start",
             LockAction.engineCall "BridgeListeners::subscribeGlobal",
             LockAction.unlockTable]))

/-- Trace of DCBridge::shutdown (bridge.cpp lines 281-355) with
nListings open listings and nClients captured session handles: the
listing destructors run under the table lock, the client teardown and
engine teardown run after it is released, and the startup lock is
taken last, on its own. -/
def shutdownTrace (init : Bool) (nClients nListings : Nat) :
    List LockAction :=
  if init = false then []
  else
    LockAction.engineCall "BridgeListeners::unsubscribeGlobal" ::
    LockAction.lockTable ::
      (List.replicate nListings
          (LockAction.engineCall "DirectoryListing destructor") ++
        LockAction.unlockTable ::
          (List.replicate nClients
              (LockAction.engineCall "Client::disconnect, ClientManager::putClient") ++
            [LockAction.engineCall "ConnectionManager::shutdown",
             LockAction.engineCall "BufferedSocket::waitShutdown",
             LockAction.engineCall "dcpp::shutdown",
             LockAction.lockStartup, LockAction.unlockStartup]))

/-- Trace of DCBridge::startNetworking (bridge.cpp lines 1356-1359):
no initialized guard at all, two unconditional engine calls, taken
regardless of the lifecycle state. -/
def startNetworkingTrace (_init : Bool) : List LockAction :=
  [LockAction.engineCall "ConnectivityManager::setup",
   LockAction.engineCall "ClientManager::infoUpdated"]

/-- Trace of DCBridge::closeFileList (bridge.cpp lines 1040-1048): no
initialized guard either, but only the table lock around the local
erase, no engine call. -/
def closeFileListTrace (_init : Bool) : List LockAction :=
  [LockAction.lockTable, LockAction.unlockTable]

/-- C1: the claim fails on the code: the success paths of
downloadDirFromList and openFileList perform their engine calls with
the table lock still held (the failing inputs), while sendMessage,
sendPM, connectHub and disconnectHub keep every engine call outside
the lock on every path. -/
theorem lock_held_across_engine_calls :
    engineUnderTableLock (downloadDirFromListTrace true true true true true) = true ∧
    engineUnderTableLock (downloadDirFromListTrace true true true true false) = true ∧
    engineUnderTableLock (openFileListTrace true false true) = true ∧
    engineUnderTableLock (openFileListTrace true false false) = true ∧
    (∀ b c : Bool, engineUnderTableLock (sendMessageTrace b c) = false) ∧
    (∀ a b c : Bool, engineUnderTableLock (sendPMTrace a b c) = false) ∧
    (∀ a b c : Bool, engineUnderTableLock (connectHubTrace a b c) = false) ∧
    (∀ a b : Bool, engineUnderTableLock (disconnectHubTrace a b) = false) := by
  decide

/-- C3: the claim fails on the code at startNetworking, which has no
initialized guard and performs its two engine calls even when the
bridge is uninitialized; every other modelled control operation
returns immediately with an empty trace when uninitialized, and the
likewise-unguarded closeFileList at least performs no engine call. -/
theorem startNetworking_unguarded :
    (startNetworkingTrace false).any isEngineCall = true ∧
    (∀ b : Bool, sendMessageTrace false b = []) ∧
    (∀ a b : Bool, sendPMTrace false a b = []) ∧
    (∀ a b : Bool, connectHubTrace false a b = []) ∧
    (∀ a : Bool, disconnectHubTrace false a = []) ∧
    (∀ a b c d e : Bool, downloadFileFromListTrace false a b c d e = []) ∧
    (∀ a b c d : Bool, downloadDirFromListTrace false a b c d = []) ∧
    (∀ a b : Bool, openFileListTrace false a b = []) ∧
    (∀ n m : Nat, shutdownTrace false n m = []) ∧
    (closeFileListTrace false).any isEngineCall = false := by
  refine ⟨by decide, by decide, by decide, by decide, by decide, by decide,
    by decide, by decide, fun n m => rfl, by decide⟩

/-- C4 counterexample: initialize acquires the startup lock while
already holding the table lock, on both the refused path and the
successful path, so the two locks are nested on a real code path. -/
theorem init_nests_startup_under_table :
    acquiresStartupUnderTable (initializeTrace false false true) = true ∧
    acquiresStartupUnderTable (initializeTrace false true true) = true := by
  decide

theorem tableUnderStartupAux_replicate (n : Nat) (g : Nat) (s : String)
    (rest : List LockAction) :
    tableUnderStartupAux g
        (List.replicate n (LockAction.engineCall s) ++ rest) =
      tableUnderStartupAux g rest := by
  induction n with
  | zero => rfl
  | succ n ih => simp [List.replicate_succ, tableUnderStartupAux, ih]

theorem startupUnderTableAux_replicate (n : Nat) (d : Nat) (s : String)
    (rest : List LockAction) :
    startupUnderTableAux d
        (List.replicate n (LockAction.engineCall s) ++ rest) =
      startupUnderTableAux d rest := by
  induction n with
  | zero => rfl
  | succ n ih => simp [List.replicate_succ, startupUnderTableAux, ih]

theorem shutdown_no_nesting (n m : Nat) :
    acquiresTableUnderStartup (shutdownTrace true n m) = false ∧
    acquiresStartupUnderTable (shutdownTrace true n m) = false := by
  constructor
  · simp [shutdownTrace, acquiresTableUnderStartup, tableUnderStartupAux,
      tableUnderStartupAux_replicate]
  · simp [shutdownTrace, acquiresStartupUnderTable, startupUnderTableAux,
      startupUnderTableAux_replicate]

/-- The modelled operations with their branch parameters, the universe
over which the lock-nesting property is stated. -/
inductive BridgeCall where
  | sendMessage (init clientFound : Bool)
  | sendPM (init clientFound userFound : Bool)
  | connectHub (init already clientOk : Bool)
  | disconnectHub (init found : Bool)
  | downloadFileFromList
      (init listingFound pathOk fileFound userOk dlDirEmpty : Bool)
  | downloadDirFromList (init listingFound userOk navOk dlDirEmpty : Bool)
  | openFileList (init alreadyOpen userResolved : Bool)
  | closeFileList (init : Bool)
  | startNetworking (init : Bool)
  | initMethod (alreadyInit gStarted fsOk : Bool)
  | shutdownMethod (init : Bool) (nClients nListings : Nat)

/-- The trace each modelled call produces. -/
def traceOf : BridgeCall → List LockAction
  | BridgeCall.sendMessage a b => sendMessageTrace a b
  | BridgeCall.sendPM a b c => sendPMTrace a b c
  | BridgeCall.connectHub a b c => connectHubTrace a b c
  | BridgeCall.disconnectHub a b => disconnectHubTrace a b
  | BridgeCall.downloadFileFromList a b c d e f =>
      downloadFileFromListTrace a b c d e f
  | BridgeCall.downloadDirFromList a b c d e =>
      downloadDirFromListTrace a b c d e
  | BridgeCall.openFileList a b c => openFileListTrace a b c
  | BridgeCall.closeFileList a => closeFileListTrace a
  | BridgeCall.startNetworking a => startNetworkingTrace a
  | BridgeCall.initMethod a b c => initializeTrace a b c
  | BridgeCall.shutdownMethod a n m => shutdownTrace a n m

/-- Whether the call is the initialize method, the one nesting site. -/
def isInitMethod : BridgeCall → Bool
  | BridgeCall.initMethod _ _ _ => true
  | _ => false

/-- C4 amended: no modelled code path ever acquires the table lock
while holding the startup lock, and the only path acquiring the
startup lock while holding the table lock is initialize, which does so
on every non-idempotent run; so the locks are nested in exactly one
place and in one fixed order rather than never. -/
theorem lock_nesting_amended :
    (∀ c : BridgeCall, acquiresTableUnderStartup (traceOf c) = false) ∧
    (∀ c : BridgeCall, isInitMethod c = false →
      acquiresStartupUnderTable (traceOf c) = false) ∧
    (∀ g f : Bool,
      acquiresStartupUnderTable (initializeTrace false g f) = true) := by
  refine ⟨?_, ?_, by decide⟩
  · intro c
    cases c with
    | sendMessage a b => revert a b; decide
    | sendPM a b c => revert a b c; decide
    | connectHub a b c => revert a b c; decide
    | disconnectHub a b => revert a b; decide
    | downloadFileFromList a b c d e f => revert a b c d e f; decide
    | downloadDirFromList a b c d e => revert a b c d e; decide
    | openFileList a b c => revert a b c; decide
    | closeFileList a => revert a; decide
    | startNetworking a => revert a; decide
    | initMethod a b c => revert a b c; decide
    | shutdownMethod a n m =>
        cases a with
        | false => rfl
        | true => exact (shutdown_no_nesting n m).1
  · intro c hc
    cases c with
    | sendMessage a b => revert a b; decide
    | sendPM a b c => revert a b c; decide
    | connectHub a b c => revert a b c; decide
    | disconnectHub a b => revert a b; decide
    | downloadFileFromList a b c d e f => revert a b c d e f; decide
    | downloadDirFromList a b c d e => revert a b c d e; decide
    | openFileList a b c => revert a b c; decide
    | closeFileList a => revert a; decide
    | startNetworking a => revert a; decide
    | initMethod a b c => exact Bool.noConfusion hc
    | shutdownMethod a n m =>
        cases a with
        | false => rfl
        | true => exact (shutdown_no_nesting n m).2

/-- C4 witness: the amended theorem applied at a concrete non-init call
and at the concrete initialize call. -/
theorem lock_nesting_amended_witness :
    isInitMethod (BridgeCall.sendMessage true true) = false ∧
    acquiresStartupUnderTable
      (traceOf (BridgeCall.sendMessage true true)) = false ∧
    acquiresTableUnderStartup
      (traceOf (BridgeCall.initMethod false false true)) = false :=
  ⟨rfl, lock_nesting_amended.2.1 (BridgeCall.sendMessage true true) rfl,
    lock_nesting_amended.1 (BridgeCall.initMethod false false true)⟩
